import Mathlib

/-!
Verification of the RoadmapTransformer pipeline of `src/main.py`
(a Streamlit roadmap dashboard).  The pipeline is embedded shallowly:
each pandas operation of `load_and_process_data`, the sidebar filter
block, and the aggregate/chart block is translated into an executable
Lean definition over lists of records.  Dates are records of numerals;
pandas `DateOffset(months=3)` subtraction is embedded with its
day-clamping semantics.
-/

namespace Roadmap

/-- A calendar date, year/month/day as numerals. -/
structure Date where
  year : Nat
  month : Nat
  day : Nat
deriving DecidableEq, Repr

/-- Gregorian leap-year test. -/
def isLeapYear (y : Nat) : Bool :=
  (y % 4 == 0 && y % 100 != 0) || (y % 400 == 0)

/-- Number of days of month `m` of year `y`. -/
def daysInMonth (y m : Nat) : Nat :=
  if m == 2 then (if isLeapYear y then 29 else 28)
  else if m == 4 || m == 6 || m == 9 || m == 11 then 30
  else 31

/-- Embedding of `date - pd.DateOffset(months=3)` (src/main.py line 63):
calendar-month subtraction, with the day clamped to the length of the
target month (pandas shifts the month and clamps the day). -/
def subDateOffsetMonths3 (d : Date) : Date :=
  let total := d.year * 12 + (d.month - 1)
  let total2 := total - 3
  let y := total2 / 12
  let m := total2 % 12 + 1
  { year := y, month := m, day := min d.day (daysInMonth y m) }

/-- Boolean chronological order on dates (lexicographic year, month, day). -/
def dateLeB (a b : Date) : Bool :=
  decide (a.year < b.year) ||
  (a.year == b.year &&
    (decide (a.month < b.month) ||
      (a.month == b.month && decide (a.day ≤ b.day))))

/-- The fixed `quarter_mapping` table of src/main.py lines 48-57: quarter
label to quarter-end date; labels outside the table get no date
(`pd.to_datetime(..., errors=coerce)` turns them into NaT). -/
def quarter_mapping (t : String) : Option Date :=
  if t = "Q1 2025" then some ⟨2025, 3, 31⟩
  else if t = "Q2 2025" then some ⟨2025, 6, 30⟩
  else if t = "Q3 2025" then some ⟨2025, 9, 30⟩
  else if t = "Q4 2025" then some ⟨2025, 12, 31⟩
  else if t = "Q1 2026" then some ⟨2026, 3, 31⟩
  else if t = "Q2 2026" then some ⟨2026, 6, 30⟩
  else if t = "Q3 2026" then some ⟨2026, 9, 30⟩
  else if t = "Q4 2026" then some ⟨2026, 12, 31⟩
  else none

/-- The domain of `quarter_mapping`, the 8 recognized labels. -/
def quarterLabels : List String :=
  ["Q1 2025", "Q2 2025", "Q3 2025", "Q4 2025",
   "Q1 2026", "Q2 2026", "Q3 2026", "Q4 2026"]

/-- The 8 quarter-end dates of the table. -/
def quarterDates : List Date :=
  [⟨2025, 3, 31⟩, ⟨2025, 6, 30⟩, ⟨2025, 9, 30⟩, ⟨2025, 12, 31⟩,
   ⟨2026, 3, 31⟩, ⟨2026, 6, 30⟩, ⟨2026, 9, 30⟩, ⟨2026, 12, 31⟩]

/-- The `status_colors` table of src/main.py lines 66-74.  The source
maps the empty status to the light-gray value inside the table and then
fills every unmapped status with the same value (`.fillna`), so the
lookup is partial here and totalized by `colorOf`. -/
def status_colors (s : String) : Option String :=
  if s = "Budget Evaluation" then some "#FFA500"
  else if s = "Evaluating" then some "#87CEEB"
  else if s = "In Progress" then some "#32CD32"
  else if s = "Completed" then some "#228B22"
  else if s = "On Hold" then some "#FF6347"
  else if s = "Planning" then some "#9370DB"
  else if s = "" then some "#D3D3D3"
  else none

/-- The six named (non-empty) status labels of the color table. -/
def statusLabels : List String :=
  ["Budget Evaluation", "Evaluating", "In Progress", "Completed",
   "On Hold", "Planning"]

/-- Embedding of `df.Status.map(status_colors).fillna('#D3D3D3')`
(src/main.py line 76). -/
def colorOf (s : String) : String :=
  (status_colors s).getD "#D3D3D3"

/-- Whitespace strip of a character list, both ends. -/
def trimChars (cs : List Char) : List Char :=
  ((cs.dropWhile Char.isWhitespace).reverse.dropWhile
    Char.isWhitespace).reverse

/-- Embedding of Python `str.strip()` (and of the pandas `.str.strip()`
used on the Name column and the column labels): remove leading and
trailing whitespace. -/
def strip (s : String) : String :=
  String.mk (trimChars s.data)

/-- Numeral value of a digit list (most significant first). -/
def digitsVal (cs : List Char) : Nat :=
  cs.foldl (fun a c => a * 10 + (c.toNat - 48)) 0

/-- Embedding of `pd.to_numeric(..., errors=coerce)` (src/main.py
line 79) on one cell: an optional sign, a decimal integer part and an
optional fractional part parse to a rational; anything else coerces to
missing.  Scientific notation is omitted; no claim depends on it. -/
def to_numeric (s : String) : Option ℚ :=
  let cs := (strip s).data
  let signed : Bool × List Char :=
    match cs with
    | c :: rest => if c = '-' then (true, rest)
                   else if c = '+' then (false, rest) else (false, cs)
    | [] => (false, [])
  let body := signed.2
  let intPart := body.takeWhile (fun c => c.isDigit)
  let rest := body.dropWhile (fun c => c.isDigit)
  let value : Option ℚ :=
    match rest with
    | [] =>
      if intPart.isEmpty then none else some ((digitsVal intPart : ℚ))
    | c :: frac =>
      if c = '.' && frac.all (fun d => d.isDigit) &&
          !(intPart.isEmpty && frac.isEmpty) then
        some ((digitsVal intPart : ℚ) +
          (digitsVal frac : ℚ) / ((10 : ℚ) ^ frac.length))
      else none
  value.map (fun v => if signed.1 then -v else v)

/-- One cleaned input row (a `Request` of the spec): the six columns of
the sheet after column-name trimming and `fillna`, as plain strings. -/
structure Request where
  name : String
  stakeholder : String
  tool_name : String
  status : String
  time_bucket : String
  priority_score_raw : String
deriving DecidableEq, Repr

/-- A `Request` plus the four derived columns of src/main.py lines
45-79 (`End_Date`, `Start_Date`, `Color`, `Priority_Numeric`). -/
structure DerivedRequest where
  name : String
  stakeholder : String
  tool_name : String
  status : String
  time_bucket : String
  priority_score_raw : String
  end_date : Option Date
  start_date : Option Date
  color : String
  priority_score : Option ℚ
deriving DecidableEq, Repr

/-- The Derive stage (src/main.py lines 45-79), per row: map the
quarter label through `quarter_mapping`, subtract the fixed 3-month
offset for the start date, color the status with the gray fallback, and
coerce the raw priority score to a number. -/
def derive (r : Request) : DerivedRequest :=
  let e := quarter_mapping r.time_bucket
  { name := r.name
    stakeholder := r.stakeholder
    tool_name := r.tool_name
    status := r.status
    time_bucket := r.time_bucket
    priority_score_raw := r.priority_score_raw
    end_date := e
    start_date := e.map subDateOffsetMonths3
    color := colorOf r.status
    priority_score := to_numeric r.priority_score_raw }

/-- One raw input row as read from the sheet, before cleaning: every
cell may be missing (pandas NaN). -/
structure RawRow where
  name : Option String
  stakeholder : Option String
  tool_name : Option String
  status : Option String
  time_bucket : Option String
  priority_score_raw : Option String
deriving DecidableEq, Repr

/-- Embedding of src/main.py lines 35-36:
`df.dropna(subset=[Name])` followed by keeping rows whose stripped name
is non-empty. -/
def cleanNames (rows : List RawRow) : List RawRow :=
  (rows.filter (fun r => r.name.isSome)).filter
    (fun r => strip (r.name.getD "") != "")

/-- Embedding of `df.fillna('')` (src/main.py line 42): every missing
cell becomes the empty string, producing a `Request`. -/
def fillRow (r : RawRow) : Request :=
  { name := r.name.getD ""
    stakeholder := r.stakeholder.getD ""
    tool_name := r.tool_name.getD ""
    status := r.status.getD ""
    time_bucket := r.time_bucket.getD ""
    priority_score_raw := r.priority_score_raw.getD "" }

/-- Raw upload: either a file pandas cannot parse as a sheet at all, or
a parsed table carrying the header labels read at offset 2 and the data
rows. -/
inductive RawInput where
  | unparseable : RawInput
  | table (header : List String) (rows : List RawRow) : RawInput
deriving DecidableEq, Repr

/-- The ingest failures: `pd.read_excel` raising on an unreadable file,
or a column access raising `KeyError`. -/
inductive IngestError where
  | parseFailure : IngestError
  | missingColumn (c : String) : IngestError
deriving DecidableEq, Repr

/-- The Ingest & Clean stage (src/main.py lines 32-45).  Column
accesses happen in source order: `Name` is accessed at lines 35-36,
BEFORE the header labels are stripped at line 39, so it must match the
raw header; `Quarter Date` (line 45), `Status` (line 76) and
`Total Priority Score` (line 79) are accessed after the strip, so they
match the trimmed header.  `Requesting Stakeholder` and `Tool Name` are
never accessed inside `load_and_process_data`, so their absence does
not fail this stage. -/
def ingest : RawInput → Except IngestError (List Request)
  | RawInput.unparseable => Except.error IngestError.parseFailure
  | RawInput.table header rows =>
    if "Name" ∉ header then
      Except.error (IngestError.missingColumn "Name")
    else
      let header2 := header.map strip
      if "Quarter Date" ∉ header2 then
        Except.error (IngestError.missingColumn "Quarter Date")
      else if "Status" ∉ header2 then
        Except.error (IngestError.missingColumn "Status")
      else if "Total Priority Score" ∉ header2 then
        Except.error (IngestError.missingColumn "Total Priority Score")
      else
        Except.ok ((cleanNames rows).map fillRow)

/-- Whether an ingest outcome is a success (no partial result exists on
the error side: the `Except` carries either the full row list or only
the error). -/
def exceptIsOk : Except IngestError (List Request) → Bool
  | Except.ok _ => true
  | Except.error _ => false

/-- The whole `load_and_process_data` (src/main.py lines 28-82):
ingest and clean, then derive every surviving row. -/
def load_and_process_data (input : RawInput) :
    Except IngestError (List DerivedRequest) :=
  (ingest input).map (fun rs => rs.map derive)

/-- The sidebar filter selections (src/main.py lines 99-108): one
quarter label or the sentinel All, a multiselect list of status labels,
one stakeholder label or the sentinel All. -/
structure FilterSpec where
  selected_timeline : String
  selected_status : List String
  selected_stakeholder : String
deriving DecidableEq, Repr

/-- The Filter stage (src/main.py lines 111-120), three sequential
restrictions: quarter equality unless All is selected; status
membership unless the selection contains All or is empty; stakeholder
equality unless All is selected. -/
def filtered_df (fs : FilterSpec) (df : List DerivedRequest) :
    List DerivedRequest :=
  let d1 :=
    if fs.selected_timeline ≠ "All" then
      df.filter (fun r => r.time_bucket == fs.selected_timeline)
    else df
  let d2 :=
    if "All" ∉ fs.selected_status ∧ fs.selected_status ≠ [] then
      d1.filter (fun r => fs.selected_status.contains r.status)
    else d1
  let d3 :=
    if fs.selected_stakeholder ≠ "All" then
      d2.filter (fun r => r.stakeholder == fs.selected_stakeholder)
    else d2
  d3

/-- The conjunction of the three filter predicates, each trivially true
when its dimension imposes no restriction. -/
def passes (fs : FilterSpec) (r : DerivedRequest) : Bool :=
  (fs.selected_timeline == "All" || r.time_bucket == fs.selected_timeline)
  && (fs.selected_status.contains "All" || fs.selected_status.isEmpty
      || fs.selected_status.contains r.status)
  && (fs.selected_stakeholder == "All"
      || r.stakeholder == fs.selected_stakeholder)

/-- One chart-ready record of the Gantt block (src/main.py
lines 149-158). -/
structure GanttRow where
  task : String
  start : Date
  finish : Date
  resource : String
  status : String
  tool : String
  timeline : String
  full_name : String
deriving DecidableEq, Repr

/-- Embedding of the task label `row.Name[:50] + ('...' if
len(row.Name) > 50 else '')` (src/main.py line 150): Python slicing
takes the first 50 characters. -/
def truncateTask (n : String) : String :=
  String.mk (n.data.take 50) ++ (if n.length > 50 then "..." else "")

/-- The chart record built from one row with resolvable dates
(src/main.py lines 149-158); the dates are read off the options. -/
def ganttRowOf (r : DerivedRequest) : GanttRow :=
  { task := truncateTask r.name
    start := r.start_date.getD ⟨0, 0, 0⟩
    finish := r.end_date.getD ⟨0, 0, 0⟩
    resource := r.stakeholder
    status := r.status
    tool := r.tool_name
    timeline := r.time_bucket
    full_name := r.name }

/-- The Gantt data loop (src/main.py lines 146-158): one record per
filtered row whose start and end dates are both defined, in input
order. -/
def gantt_data (df : List DerivedRequest) : List GanttRow :=
  df.filterMap (fun r =>
    match r.start_date, r.end_date with
    | some _, some _ => some (ganttRowOf r)
    | _, _ => none)

/-- One counting step of a pandas value-count hash table: increment the
entry of `x` if present (first matching entry), else append `(x, 1)` at
the end, preserving first-appearance order of keys. -/
def bump (x : String) : List (String × Nat) → List (String × Nat)
  | [] => [(x, 1)]
  | (y, n) :: rest =>
    if y = x then (y, n + 1) :: rest else (y, n) :: bump x rest

/-- Counts of a list of labels in first-appearance key order, as a
pandas value-count hash table builds them. -/
def countsInOrder (xs : List String) : List (String × Nat) :=
  xs.foldl (fun acc x => bump x acc) []

/-- The count recorded for `x` (0 when absent). -/
def cnt (l : List (String × Nat)) (x : String) : Nat :=
  match l.find? (fun p => p.1 == x) with
  | some p => p.2
  | none => 0

/-- The key column of a count table. -/
def keys (l : List (String × Nat)) : List String :=
  l.map Prod.fst

/-- The sum of the counts of a count table. -/
def sumCounts (l : List (String × Nat)) : Nat :=
  (l.map Prod.snd).sum

/-- Embedding of `Series.value_counts()`: count the labels, then sort
by count descending.  The order among equal counts is not specified by
pandas (its sort of the count column is not stable); no theorem below
depends on that order. -/
def value_counts (xs : List String) : List (String × Nat) :=
  List.insertionSort (fun p q : String × Nat => q.2 ≤ p.2)
    (countsInOrder xs)

/-- Boolean lexicographic (code-point) comparison of character
lists. -/
def charListLeB : List Char → List Char → Bool
  | [], _ => true
  | _ :: _, [] => false
  | a :: as, b :: bs =>
    if a < b then true else if b < a then false else charListLeB as bs

/-- Boolean code-point comparison of strings — the order Python uses to
compare the quarter labels. -/
def stringLeB (a b : String) : Bool :=
  charListLeB a.data b.data

/-- Embedding of `.sort_index()` on a value-count table: sort by the
label, in the lexicographic code-point order Python uses to compare
strings.  Keys of a count table are distinct, so stability is moot. -/
def sort_index (l : List (String × Nat)) : List (String × Nat) :=
  List.insertionSort (fun p q : String × Nat => stringLeB p.1 q.1 = true) l

/-- `len(filtered_df)` (src/main.py line 128). -/
def total_count (df : List DerivedRequest) : Nat := df.length

/-- `filtered_df.Status.value_counts()` (src/main.py line 206). -/
def status_counts (df : List DerivedRequest) : List (String × Nat) :=
  value_counts (df.map DerivedRequest.status)

/-- `filtered_df[Requesting Stakeholder].value_counts()` (src/main.py
line 217). -/
def stakeholder_counts (df : List DerivedRequest) : List (String × Nat) :=
  value_counts (df.map DerivedRequest.stakeholder)

/-- `filtered_df.Timeline.value_counts().sort_index()` (src/main.py
line 256), the quarterly distribution. -/
def quarter_dist (df : List DerivedRequest) : List (String × Nat) :=
  sort_index (value_counts (df.map DerivedRequest.time_bucket))

/-- `filtered_df[filtered_df[Tool Name] != ''][Tool Name]
.value_counts().head(5)` (src/main.py line 262). -/
def tool_counts (df : List DerivedRequest) : List (String × Nat) :=
  (value_counts
    ((df.filter (fun r => r.tool_name != "")).map
      DerivedRequest.tool_name)).take 5

/-- C3: the Derive stage maps each of the 8 recognized quarter labels to
exactly the enumerated quarter-end date, and the row
(name X, time_bucket Q1 2025, status In Progress) derives
end_date 2025-03-31, start_date 2024-12-31 and color #32CD32. -/
theorem quarter_table_and_scenario :
    quarter_mapping "Q1 2025" = some ⟨2025, 3, 31⟩ ∧
    quarter_mapping "Q2 2025" = some ⟨2025, 6, 30⟩ ∧
    quarter_mapping "Q3 2025" = some ⟨2025, 9, 30⟩ ∧
    quarter_mapping "Q4 2025" = some ⟨2025, 12, 31⟩ ∧
    quarter_mapping "Q1 2026" = some ⟨2026, 3, 31⟩ ∧
    quarter_mapping "Q2 2026" = some ⟨2026, 6, 30⟩ ∧
    quarter_mapping "Q3 2026" = some ⟨2026, 9, 30⟩ ∧
    quarter_mapping "Q4 2026" = some ⟨2026, 12, 31⟩ ∧
    (derive ⟨"X", "", "", "In Progress", "Q1 2025", ""⟩).end_date
      = some ⟨2025, 3, 31⟩ ∧
    (derive ⟨"X", "", "", "In Progress", "Q1 2025", ""⟩).start_date
      = some ⟨2024, 12, 31⟩ ∧
    (derive ⟨"X", "", "", "In Progress", "Q1 2025", ""⟩).color
      = "#32CD32" := by
  decide

/-- Any quarter label the table resolves resolves to one of the 8
enumerated quarter-end dates. -/
theorem quarter_mapping_mem (t : String) (e : Date)
    (h : quarter_mapping t = some e) : e ∈ quarterDates := by
  unfold quarter_mapping at h
  split_ifs at h <;> simp_all [quarterDates]

/-- C1: the Derive stage is total — it is a plain function on
`Request`, and the three fallbacks hold: a quarter label outside the
table yields no end date and hence no start date, a status outside the
color table (the empty status included, since `statusLabels` lists only
the six named labels) yields the default color, and the priority score
is the numeric coercion of the raw field, which is `none` on
non-numeric text such as "abc" (or an empty cell). -/
theorem derive_total_fallbacks (r : Request) :
    (r.time_bucket ∉ quarterLabels →
      (derive r).end_date = none ∧ (derive r).start_date = none)
  ∧ (r.status ∉ statusLabels → (derive r).color = "#D3D3D3")
  ∧ ((derive r).priority_score = to_numeric r.priority_score_raw
      ∧ to_numeric "abc" = none ∧ to_numeric "" = none) := by
  refine ⟨fun h => ?_, fun h => ?_, rfl, by decide, by decide⟩
  · simp only [quarterLabels, List.mem_cons, not_or,
      List.not_mem_nil, not_false_iff, and_true] at h
    obtain ⟨h1, h2, h3, h4, h5, h6, h7, h8⟩ := h
    constructor <;>
      simp [derive, quarter_mapping, h1, h2, h3, h4, h5, h6, h7, h8]
  · simp only [statusLabels, List.mem_cons, not_or,
      List.not_mem_nil, not_false_iff, and_true] at h
    obtain ⟨h1, h2, h3, h4, h5, h6⟩ := h
    by_cases h0 : r.status = ""
    · simp [derive, colorOf, status_colors, h0]
    · simp [derive, colorOf, status_colors, h0, h1, h2, h3, h4, h5, h6]

/-- Witness for C1 at the row (Y, status Weird, bucket Q5 2099,
priority abc). -/
theorem derive_total_fallbacks_witness :
    ((derive ⟨"Y", "", "", "Weird", "Q5 2099", "abc"⟩).end_date = none
      ∧ (derive ⟨"Y", "", "", "Weird", "Q5 2099", "abc"⟩).start_date = none)
  ∧ (derive ⟨"Y", "", "", "Weird", "Q5 2099", "abc"⟩).color = "#D3D3D3" :=
  ⟨(derive_total_fallbacks ⟨"Y", "", "", "Weird", "Q5 2099", "abc"⟩).1
      (by decide),
   (derive_total_fallbacks ⟨"Y", "", "", "Weird", "Q5 2099", "abc"⟩).2.1
      (by decide)⟩

/-- C2: whenever the derived end date is defined, the start date is
exactly the end date minus 3 calendar months (the pandas
`DateOffset(months=3)` subtraction, a fixed offset with no user input),
and the start date is chronologically at or before the end date. -/
theorem derive_start_eq_end_minus_three_months (r : Request) (e : Date)
    (h : (derive r).end_date = some e) :
    (derive r).start_date = some (subDateOffsetMonths3 e)
  ∧ dateLeB (subDateOffsetMonths3 e) e = true := by
  have he : quarter_mapping r.time_bucket = some e := h
  constructor
  · simp [derive, he]
  · have hm := quarter_mapping_mem _ _ he
    simp only [quarterDates, List.mem_cons, List.not_mem_nil,
      or_false] at hm
    rcases hm with rfl | rfl | rfl | rfl | rfl | rfl | rfl | rfl <;>
      decide

/-- Witness for C2 at the Q1 2025 row of the C3 scenario. -/
theorem derive_start_eq_end_minus_three_months_witness :
    (derive ⟨"X", "", "", "In Progress", "Q1 2025", ""⟩).start_date
      = some (subDateOffsetMonths3 ⟨2025, 3, 31⟩)
  ∧ dateLeB (subDateOffsetMonths3 ⟨2025, 3, 31⟩) ⟨2025, 3, 31⟩ = true :=
  derive_start_eq_end_minus_three_months
    ⟨"X", "", "", "In Progress", "Q1 2025", ""⟩ ⟨2025, 3, 31⟩ (by decide)

/-- C10: an empty status multiselect imposes no restriction — the
filter behaves exactly as with the selection containing the sentinel
All, and with the other two dimensions also at All every row passes. -/
theorem empty_status_selection_unrestricted (t k : String)
    (df : List DerivedRequest) :
    filtered_df ⟨t, [], k⟩ df = filtered_df ⟨t, ["All"], k⟩ df
  ∧ filtered_df ⟨"All", [], "All"⟩ df = df := by
  constructor
  · simp [filtered_df]
  · simp [filtered_df]

/-- Boolean equality of strings is the decision of propositional
equality. -/
theorem beq_eq_decide (a b : String) : (a == b) = decide (a = b) := by
  by_cases h : a = b <;> simp [h]

/-- List containment is the decision of membership. -/
theorem contains_eq_decide_mem (a : String) (l : List String) :
    l.contains a = decide (a ∈ l) := by
  induction l with
  | nil => rfl
  | cons b bs ih =>
    by_cases hb : a = b <;> simp [hb, ih, List.mem_cons]

/-- Emptiness test is the decision of being nil. -/
theorem isEmpty_eq_decide (l : List String) :
    l.isEmpty = decide (l = []) := by
  cases l <;> simp

/-- C4: the Filter stage returns exactly the rows satisfying the
conjunction `passes` of the three per-dimension predicates (equality on
quarter and stakeholder, membership in the status selection), each
trivially true when its dimension imposes no restriction; and when no
predicate is supplied — quarter and stakeholder at the sentinel All and
the status selection containing All or empty — every row is returned
unchanged. -/
theorem filtered_df_eq_conj_filter (fs : FilterSpec)
    (df : List DerivedRequest) :
    filtered_df fs df = df.filter (fun r => passes fs r)
  ∧ (fs.selected_timeline = "All" →
      ("All" ∈ fs.selected_status ∨ fs.selected_status = []) →
      fs.selected_stakeholder = "All" →
      filtered_df fs df = df) := by
  constructor
  · by_cases h1 : fs.selected_timeline = "All" <;>
    by_cases h2 : "All" ∈ fs.selected_status <;>
    by_cases h3 : fs.selected_status = [] <;>
    by_cases h4 : fs.selected_stakeholder = "All" <;>
      simp [filtered_df, passes, h1, h2, h3, h4, beq_eq_decide,
        contains_eq_decide_mem, isEmpty_eq_decide, List.filter_filter,
        List.filter_true, Bool.and_comm, Bool.and_left_comm,
        Bool.and_assoc]
  · intro h1 h23 h4
    rcases h23 with h2 | h3
    · simp [filtered_df, h1, h2, h4]
    · simp [filtered_df, h1, h3, h4]

/-- Witness for C4: the all-sentinel filter returns a concrete one-row
set unchanged. -/
theorem filtered_df_eq_conj_filter_witness :
    filtered_df ⟨"All", ["All"], "All"⟩
        [derive ⟨"X", "", "", "In Progress", "Q1 2025", ""⟩]
      = [derive ⟨"X", "", "", "In Progress", "Q1 2025", ""⟩] :=
  (filtered_df_eq_conj_filter ⟨"All", ["All"], "All"⟩
      [derive ⟨"X", "", "", "In Progress", "Q1 2025", ""⟩]).2
    rfl (Or.inl (by decide)) rfl

/-- C8 counterexample: a parsed table whose header lacks the
Tool Name column (and the Requesting Stakeholder column) is ingested
successfully, so ingest does NOT fail exactly when one of the six
required columns is absent. -/
theorem ingest_ok_without_tool_name :
    exceptIsOk (ingest (RawInput.table
      ["Name", "Quarter Date", "Status", "Total Priority Score"] []))
      = true
  ∧ "Tool Name" ∉
      ["Name", "Quarter Date", "Status", "Total Priority Score"] := by
  constructor
  · rfl
  · decide

/-- C8 amended: ingest fails exactly when the input is unparseable as a
table, or the raw header lacks the exact label Name (the Name column is
read before the labels are trimmed), or the trimmed header lacks
Quarter Date, Status or Total Priority Score; the absence of
Requesting Stakeholder or Tool Name does not fail the ingest stage (the
later UI stage reads them).  No partial result exists on failure. -/
theorem ingest_ok_iff (h : List String) (rows : List RawRow) :
    (exceptIsOk (ingest (RawInput.table h rows)) = true ↔
      ("Name" ∈ h ∧ "Quarter Date" ∈ h.map strip ∧
        "Status" ∈ h.map strip ∧ "Total Priority Score" ∈ h.map strip))
  ∧ exceptIsOk (ingest RawInput.unparseable) = false := by
  refine ⟨?_, rfl⟩
  by_cases c1 : "Name" ∈ h <;>
  by_cases c2 : "Quarter Date" ∈ h.map strip <;>
  by_cases c3 : "Status" ∈ h.map strip <;>
  by_cases c4 : "Total Priority Score" ∈ h.map strip <;>
    simp [ingest, exceptIsOk, c1, c2, c3, c4]

/-- Witness for C8 at the full six-column header. -/
theorem ingest_ok_iff_witness :
    exceptIsOk (ingest (RawInput.table
      ["Name", "Requesting Stakeholder", "Quarter Date", "Tool Name",
        "Status", "Total Priority Score"] [])) = true :=
  ((ingest_ok_iff
      ["Name", "Requesting Stakeholder", "Quarter Date", "Tool Name",
        "Status", "Total Priority Score"] []).1).mpr (by decide)

/-- C7: every request a successful ingest returns has a name that is
non-empty after stripping (hence non-empty), the property carries over
to the derived rows, and re-applying the blank-name drop to the
already-cleaned rows removes nothing. -/
theorem ingest_drops_blank_names (h : List String) (rows : List RawRow)
    (reqs : List Request)
    (hok : ingest (RawInput.table h rows) = Except.ok reqs) :
    (∀ q ∈ reqs, strip q.name ≠ "" ∧ q.name ≠ "")
  ∧ (∀ d ∈ reqs.map derive, strip d.name ≠ "" ∧ d.name ≠ "")
  ∧ cleanNames (cleanNames rows) = cleanNames rows := by
  have hreqs : reqs = (cleanNames rows).map fillRow := by
    simp only [ingest] at hok
    split_ifs at hok
    all_goals simp_all
  have hmem : ∀ r ∈ cleanNames rows, strip (r.name.getD "") ≠ "" := by
    intro r hr
    have h2 := (List.mem_filter.mp hr).2
    simpa using h2
  have part1 : ∀ q ∈ reqs, strip q.name ≠ "" ∧ q.name ≠ "" := by
    intro q hq
    rw [hreqs] at hq
    obtain ⟨r, hr, rfl⟩ := List.mem_map.mp hq
    have h1 := hmem r hr
    refine ⟨h1, fun h0 => h1 ?_⟩
    have he : r.name.getD "" = "" := h0
    rw [he]
    rfl
  refine ⟨part1, ?_, ?_⟩
  · intro d hd
    obtain ⟨q, hq, rfl⟩ := List.mem_map.mp hd
    exact part1 q hq
  · have hp : ∀ r ∈ cleanNames rows, r.name.isSome = true :=
      fun r hr => (List.mem_filter.mp (List.mem_filter.mp hr).1).2
    have hq : ∀ r ∈ cleanNames rows,
        (strip (r.name.getD "") != "") = true :=
      fun r hr => (List.mem_filter.mp hr).2
    show ((cleanNames rows).filter _).filter _ = cleanNames rows
    rw [List.filter_eq_self.mpr hp, List.filter_eq_self.mpr hq]

/-- Witness for C7 on a three-row upload with one valid name, one
whitespace name and one missing name. -/
theorem ingest_drops_blank_names_witness :
    cleanNames (cleanNames
      [RawRow.mk (some "ok") none none none none none,
       RawRow.mk (some "  ") none none none none none,
       RawRow.mk none none none none none none])
    = cleanNames
      [RawRow.mk (some "ok") none none none none none,
       RawRow.mk (some "  ") none none none none none,
       RawRow.mk none none none none none none] :=
  (ingest_drops_blank_names
    ["Name", "Quarter Date", "Status", "Total Priority Score"]
    [RawRow.mk (some "ok") none none none none none,
     RawRow.mk (some "  ") none none none none none,
     RawRow.mk none none none none none none]
    [Request.mk "ok" "" "" "" "" ""] rfl).2.2

/-- A bump adds one to the total of the counts. -/
theorem sumCounts_bump (x : String) (l : List (String × Nat)) :
    sumCounts (bump x l) = sumCounts l + 1 := by
  induction l with
  | nil => rfl
  | cons p rest ih =>
    obtain ⟨y, n⟩ := p
    by_cases hxy : y = x
    · simp [bump, hxy, sumCounts]
      omega
    · simp [bump, hxy, sumCounts] at ih ⊢
      omega

/-- Folding bumps adds the length of the processed labels to the
total. -/
theorem sumCounts_foldl_bump (xs : List String) :
    ∀ acc, sumCounts (xs.foldl (fun a x => bump x a) acc)
      = sumCounts acc + xs.length := by
  induction xs with
  | nil => intro acc; simp
  | cons x rest ih =>
    intro acc
    rw [List.foldl_cons, ih (bump x acc), sumCounts_bump]
    simp
    omega

/-- The counts of a label list total its length. -/
theorem sumCounts_countsInOrder (xs : List String) :
    sumCounts (countsInOrder xs) = xs.length := by
  have h0 := sumCounts_foldl_bump xs []
  simpa [countsInOrder, sumCounts] using h0

/-- Permuting a count table keeps the total. -/
theorem sumCounts_perm {l1 l2 : List (String × Nat)}
    (h : l1.Perm l2) : sumCounts l1 = sumCounts l2 :=
  (h.map Prod.snd).sum_eq

/-- The sorted value-count table of a label list totals its length. -/
theorem sumCounts_value_counts (xs : List String) :
    sumCounts (value_counts xs) = xs.length := by
  unfold value_counts
  rw [sumCounts_perm (List.perm_insertionSort _ _)]
  exact sumCounts_countsInOrder xs

/-- A count table after an index sort keeps its total. -/
theorem sumCounts_sort_index (l : List (String × Nat)) :
    sumCounts (sort_index l) = sumCounts l := by
  unfold sort_index
  exact sumCounts_perm (List.perm_insertionSort _ _)

/-- Bumping `x` increments the recorded count of `x`. -/
theorem cnt_bump_same (x : String) (l : List (String × Nat)) :
    cnt (bump x l) x = cnt l x + 1 := by
  induction l with
  | nil => simp [bump, cnt, List.find?]
  | cons p rest ih =>
    obtain ⟨y, n⟩ := p
    by_cases hxy : y = x
    · simp [bump, hxy, cnt, List.find?]
    · simpa [bump, hxy, cnt, List.find?, beq_eq_decide] using ih

/-- Bumping `x` leaves the recorded count of any other label
unchanged. -/
theorem cnt_bump_other (x z : String) (hz : z ≠ x)
    (l : List (String × Nat)) : cnt (bump x l) z = cnt l z := by
  have hxz : x ≠ z := fun h => hz h.symm
  induction l with
  | nil => simp [bump, cnt, List.find?, beq_eq_decide, hxz]
  | cons p rest ih =>
    obtain ⟨y, n⟩ := p
    by_cases hxy : y = x
    · subst hxy
      simp [bump, cnt, List.find?, beq_eq_decide, hxz]
    · by_cases hyz : y = z
      · subst hyz
        simp [bump, cnt, List.find?, beq_eq_decide, hxy, hz]
      · simpa [bump, hxy, cnt, List.find?, beq_eq_decide, hyz] using ih

/-- The keys after a bump are the old keys, extended by `x` when it was
absent. -/
theorem keys_bump (x : String) (l : List (String × Nat)) :
    keys (bump x l)
      = if x ∈ keys l then keys l else keys l ++ [x] := by
  induction l with
  | nil => simp [bump, keys]
  | cons p rest ih =>
    obtain ⟨y, n⟩ := p
    by_cases hxy : y = x
    · subst hxy
      have hb : bump y ((y, n) :: rest) = (y, n + 1) :: rest := by
        simp [bump]
      rw [hb, show keys ((y, n + 1) :: rest) = y :: keys rest from rfl,
        show keys ((y, n) :: rest) = y :: keys rest from rfl,
        if_pos (List.mem_cons_self y (keys rest))]
    · have hyx : x ≠ y := fun h => hxy h.symm
      have hb : bump x ((y, n) :: rest) = (y, n) :: bump x rest := by
        simp [bump, hxy]
      rw [hb, show keys ((y, n) :: bump x rest)
            = y :: keys (bump x rest) from rfl,
        show keys ((y, n) :: rest) = y :: keys rest from rfl, ih]
      by_cases hmem : x ∈ keys rest
      · rw [if_pos hmem, if_pos (List.mem_cons.mpr (Or.inr hmem))]
      · rw [if_neg hmem,
          if_neg (by simp [List.mem_cons, hyx, hmem]),
          List.cons_append]

/-- A bump keeps distinct keys distinct. -/
theorem keys_bump_nodup (x : String) (l : List (String × Nat))
    (h : (keys l).Nodup) : (keys (bump x l)).Nodup := by
  rw [keys_bump]
  by_cases hmem : x ∈ keys l
  · simpa [hmem] using h
  · simpa [hmem, List.nodup_append] using h

/-- In a table with distinct keys, every entry records the count the
table assigns to its own key. -/
theorem cnt_of_mem (l : List (String × Nat)) (h : (keys l).Nodup) :
    ∀ p ∈ l, cnt l p.1 = p.2 := by
  induction l with
  | nil => simp
  | cons q rest ih =>
    intro p hp
    have hnodup : (q.1 :: keys rest).Nodup := h
    obtain ⟨hq, hrest⟩ := List.nodup_cons.mp hnodup
    rcases List.mem_cons.mp hp with rfl | hp2
    · simp [cnt, List.find?]
    · have hne : q.1 ≠ p.1 := by
        intro he
        exact hq (he ▸ (List.mem_map.mpr ⟨p, hp2, rfl⟩))
      have := ih hrest p hp2
      simpa [cnt, List.find?, beq_eq_decide, hne] using this

/-- The invariant of the counting fold: distinct keys, counts that add
the occurrences of the processed labels, and keys that are the old keys
plus the processed labels. -/
theorem foldl_bump_inv (xs : List String) :
    ∀ acc, (keys acc).Nodup →
      ((keys (xs.foldl (fun a x => bump x a) acc)).Nodup
      ∧ (∀ z, cnt (xs.foldl (fun a x => bump x a) acc) z
          = cnt acc z + xs.count z)
      ∧ (∀ z, z ∈ keys (xs.foldl (fun a x => bump x a) acc)
          ↔ z ∈ keys acc ∨ z ∈ xs)) := by
  induction xs with
  | nil => intro acc hacc; simp [hacc]
  | cons x rest ih =>
    intro acc hacc
    obtain ⟨n1, n2, n3⟩ := ih (bump x acc) (keys_bump_nodup x acc hacc)
    refine ⟨by simpa using n1, fun z => ?_, fun z => ?_⟩
    · rw [List.foldl_cons, n2 z]
      by_cases hz : z = x
      · subst hz
        rw [cnt_bump_same]
        simp [List.count_cons]
        omega
      · rw [cnt_bump_other x z hz]
        simp [List.count_cons, hz]
    · rw [List.foldl_cons, n3 z, keys_bump]
      by_cases hmem : x ∈ keys acc
      · by_cases hzx : z = x <;> simp [hmem, hzx, List.mem_cons]
      · by_cases hzx : z = x <;> simp [hmem, hzx, List.mem_cons]

/-- Every entry of the in-order count table records the number of
occurrences of its key. -/
theorem countsInOrder_entries (xs : List String) :
    ∀ p ∈ countsInOrder xs, p.2 = xs.count p.1 := by
  intro p hp
  obtain ⟨n1, n2, _⟩ := foldl_bump_inv xs [] (by simp [keys])
  have h1 := cnt_of_mem (countsInOrder xs) n1 p hp
  have h2 := n2 p.1
  simp only [countsInOrder] at h1 h2 ⊢
  rw [h1] at h2
  simpa [cnt] using h2

/-- A label is a key of the in-order count table exactly when it occurs
in the list. -/
theorem countsInOrder_mem_keys (xs : List String) (z : String) :
    z ∈ keys (countsInOrder xs) ↔ z ∈ xs := by
  obtain ⟨_, _, n3⟩ := foldl_bump_inv xs [] (by simp [keys])
  simpa [countsInOrder, keys] using n3 z

/-- The Boolean lexicographic comparison decides the absence of a
reversed list order. -/
theorem charListLeB_iff : ∀ as bs : List Char,
    charListLeB as bs = true ↔ ¬ List.lt bs as := by
  intro as
  induction as with
  | nil =>
    intro bs
    constructor
    · intro _ h
      cases h
    · intro _
      rfl
  | cons a as1 ih =>
    intro bs
    cases bs with
    | nil =>
      show false = true ↔ ¬ List.lt [] (a :: as1)
      constructor
      · intro h
        cases h
      · intro h
        exact absurd (List.lt.nil a as1) h
    | cons b bs1 =>
      show (if a < b then true
          else if b < a then false else charListLeB as1 bs1) = true
        ↔ ¬ List.lt (b :: bs1) (a :: as1)
      by_cases hab : a < b
      · rw [if_pos hab]
        refine ⟨fun _ h => ?_, fun _ => rfl⟩
        cases h with
        | head _ _ hba => exact lt_asymm hab hba
        | tail h1 h2 h3 => exact h2 hab
      · by_cases hba : b < a
        · rw [if_neg hab, if_pos hba]
          refine ⟨fun h => ?_, fun h => ?_⟩
          · cases h
          · exact absurd (List.lt.head bs1 as1 hba) h
        · rw [if_neg hab, if_neg hba, ih bs1]
          constructor
          · intro h hcons
            cases hcons with
            | head _ _ h0 => exact hba h0
            | tail h1 h2 h3 => exact h h3
          · intro h h0
            exact h (List.lt.tail hba hab h0)

/-- The Boolean string comparison decides the order of Mathlib on
strings. -/
theorem stringLeB_iff (a b : String) : stringLeB a b = true ↔ a ≤ b := by
  have hbridge : (b < a) ↔ List.lt b.data a.data :=
    String.lt_iff_toList_lt.trans (List.lt_iff_lex_lt _ _).symm
  rw [← not_lt (a := b) (b := a), hbridge]
  exact charListLeB_iff a.data b.data

/-- C5 counterexample: on a Q4 2025 row and a Q1 2026 row the
quarterly distribution lists Q1 2026 first, although its quarter-end
date is strictly later than the one of Q4 2025 — the ordering is
lexical on the label, not chronological. -/
theorem quarter_dist_not_chronological :
    quarter_dist [derive ⟨"A", "", "", "", "Q4 2025", ""⟩,
                  derive ⟨"B", "", "", "", "Q1 2026", ""⟩]
      = [("Q1 2026", 1), ("Q4 2025", 1)]
  ∧ quarter_mapping "Q4 2025" = some ⟨2025, 12, 31⟩
  ∧ quarter_mapping "Q1 2026" = some ⟨2026, 3, 31⟩
  ∧ dateLeB ⟨2025, 12, 31⟩ ⟨2026, 3, 31⟩ = true
  ∧ (⟨2025, 12, 31⟩ : Date) ≠ ⟨2026, 3, 31⟩ := by
  refine ⟨by decide, by decide, by decide, by decide, by decide⟩

/-- C5 amended: the quarterly distribution is ordered ascending by the
lexicographic (code-point) order of the time-bucket label — which
coincides with chronological order within one year but not across
years — and maps exactly the labels present in the filtered set to
their occurrence counts. -/
theorem quarter_dist_sorted_by_label (df : List DerivedRequest) :
    List.Sorted (fun p q : String × Nat => p.1 ≤ q.1) (quarter_dist df)
  ∧ (∀ p ∈ quarter_dist df,
      p.2 = (df.map DerivedRequest.time_bucket).count p.1)
  ∧ (∀ z : String, z ∈ keys (quarter_dist df)
      ↔ z ∈ df.map DerivedRequest.time_bucket) := by
  have hperm : (quarter_dist df).Perm
      (countsInOrder (df.map DerivedRequest.time_bucket)) := by
    unfold quarter_dist value_counts sort_index
    exact (List.perm_insertionSort _ _).trans
      (List.perm_insertionSort _ _)
  have htot : IsTotal (String × Nat)
      (fun p q => stringLeB p.1 q.1 = true) :=
    ⟨fun p q => (le_total p.1 q.1).imp
      (stringLeB_iff p.1 q.1).mpr (stringLeB_iff q.1 p.1).mpr⟩
  have htrans : IsTrans (String × Nat)
      (fun p q => stringLeB p.1 q.1 = true) :=
    ⟨fun p q r h1 h2 => (stringLeB_iff p.1 r.1).mpr
      (le_trans ((stringLeB_iff p.1 q.1).mp h1)
        ((stringLeB_iff q.1 r.1).mp h2))⟩
  refine ⟨?_, ?_, ?_⟩
  · have hs := @List.sorted_insertionSort (String × Nat)
      (fun p q => stringLeB p.1 q.1 = true) _ htot htrans
      (value_counts (df.map DerivedRequest.time_bucket))
    exact hs.imp (fun h => (stringLeB_iff _ _).mp h)
  · intro p hp
    exact countsInOrder_entries _ p (hperm.mem_iff.mp hp)
  · intro z
    rw [show keys (quarter_dist df)
        = (quarter_dist df).map Prod.fst from rfl,
      (hperm.map Prod.fst).mem_iff]
    exact countsInOrder_mem_keys _ z

/-- Witness for C5 amended on a concrete two-row set. -/
theorem quarter_dist_sorted_by_label_witness :
    ("Q1 2026", 1)
      ∈ quarter_dist [derive ⟨"A", "", "", "", "Q4 2025", ""⟩,
                      derive ⟨"B", "", "", "", "Q1 2026", ""⟩]
  ∧ (1 : Nat)
      = (([derive ⟨"A", "", "", "", "Q4 2025", ""⟩,
           derive ⟨"B", "", "", "", "Q1 2026", ""⟩]).map
          DerivedRequest.time_bucket).count "Q1 2026" :=
  ⟨by decide,
   (quarter_dist_sorted_by_label
      [derive ⟨"A", "", "", "", "Q4 2025", ""⟩,
       derive ⟨"B", "", "", "", "Q1 2026", ""⟩]).2.1
     ("Q1 2026", 1) (by decide)⟩

/-- C6: the chart rows are exactly the filtered rows with both dates
defined, in input order, each mapped to its chart record; the label is
the name itself when it has at most 50 characters and the first 50
characters plus an ellipsis marker when longer; rows lacking a date are
absent from the chart but are still counted — the total and the status,
stakeholder and quarterly count tables all total the full row count. -/
theorem gantt_rows_spec (df : List DerivedRequest) :
    gantt_data df
      = (df.filter
          (fun r => r.start_date.isSome && r.end_date.isSome)).map
          ganttRowOf
  ∧ (∀ r : DerivedRequest, r.name.length ≤ 50 →
      (ganttRowOf r).task = r.name)
  ∧ (∀ r : DerivedRequest, 50 < r.name.length →
      (ganttRowOf r).task = String.mk (r.name.data.take 50) ++ "...")
  ∧ total_count df = df.length
  ∧ sumCounts (status_counts df) = df.length
  ∧ sumCounts (stakeholder_counts df) = df.length
  ∧ sumCounts (quarter_dist df) = df.length := by
  refine ⟨?_, ?_, ?_, rfl, ?_, ?_, ?_⟩
  · induction df with
    | nil => rfl
    | cons r rest ih =>
      simp only [gantt_data, List.filterMap_cons] at ih ⊢
      cases hs : r.start_date <;> cases he : r.end_date <;>
        simp [List.filter_cons, hs, he, ih]
  · intro r h
    have hl : r.name.data.length ≤ 50 := h
    show String.mk (r.name.data.take 50)
        ++ (if r.name.length > 50 then "..." else "") = r.name
    rw [List.take_of_length_le hl, if_neg (by omega)]
    exact String.append_empty r.name
  · intro r h
    show String.mk (r.name.data.take 50)
        ++ (if r.name.length > 50 then "..." else "")
      = String.mk (r.name.data.take 50) ++ "..."
    rw [if_pos h]
  · unfold status_counts
    rw [sumCounts_value_counts, List.length_map]
  · unfold stakeholder_counts
    rw [sumCounts_value_counts, List.length_map]
  · unfold quarter_dist
    rw [sumCounts_sort_index, sumCounts_value_counts, List.length_map]

/-- Witness for C6: a short name is its own label. -/
theorem gantt_rows_spec_witness :
    (ganttRowOf (derive ⟨"X", "", "", "In Progress", "Q1 2025", ""⟩)).task
      = (derive ⟨"X", "", "", "In Progress", "Q1 2025", ""⟩).name :=
  (gantt_rows_spec []).2.1
    (derive ⟨"X", "", "", "In Progress", "Q1 2025", ""⟩) (by decide)

end Roadmap
